import Mathlib

/-!
Verification of the numeric core of the `nyasynth` software synthesizer
(`src/common.rs` and `src/params.rs`).

Modelling conventions:
* `f32` values on which the program performs only field operations and
  comparisons are modelled as `ℚ` (these operations are exact, so the
  rational model is faithful on the dyadic inputs used by the claims).
* `f32` values fed through transcendental functions (`log2`, `exp2`,
  `log10`, `powf`) are modelled as `ℝ`, with Mathlib's `Real.logb` and
  real exponentiation standing for the float routines.
* `i32` sample offsets are modelled as `ℤ`, `usize` counts as `ℕ`.
* Rust's `num as usize` cast of a (nonnegative) `i32` is modelled with
  `Int.toNat`.
-/

/-- Modelled from the spec: `ease::lerp` (the file `ease.rs` is not part of
the provided sources).  Spec 4.1, Linear variant: `start + raw*(end-start)`. -/
def lerp (start final t : ℚ) : ℚ :=
  start + (final - start) * t

/-- `interpolate_n` from `NormalizedPitchbend::to_pitch_envelope`
(common.rs, lines 261-263): `(0..num).map(|i| lerp(start, end, i as f32 / num as f32))`. -/
def interpolate_n (start final : ℚ) (num : ℕ) : List ℚ :=
  (List.range num).map (fun (i : ℕ) => lerp start final ((i : ℚ) / (num : ℚ)))

/-- Modelled from the spec: `NeighborPairsIter` (the file `neighbor_pairs.rs`
is not part of the provided sources).  Spec 4.4: "Walk consecutive pairs of
points" — the pairs of adjacent elements of the list. -/
def neighbor_pairs (l : List α) : List (α × α) :=
  l.zip l.tail

/-- The `flat_map` stage of `to_pitch_envelope` (common.rs, lines 288-291):
interpolate each neighbouring pair of `(value, offset)` points, emitting
`b - a` samples per segment (`num as usize` modelled with `Int.toNat`,
faithful for nondecreasing offsets). -/
def envSamples (pts : List (ℚ × ℤ)) : List ℚ :=
  (neighbor_pairs pts).flatMap fun x => interpolate_n x.1.1 x.2.1 (x.2.2 - x.1.2).toNat

/-- `NormalizedPitchbend::to_pitch_envelope` (common.rs, lines 252-294).
Pitch-bend values are the `ℚ` payload of the `NormalizedPitchbend` newtype.
Builds the point list `(prev_pitch_bend, 0) :: pitch_bend ++ [(last_bend,
num_samples)]` where `last_bend` is the last event's value (or
`prev_pitch_bend` if there are no events), interpolates neighbouring pairs,
and returns the sample list together with `last_bend`. -/
def to_pitch_envelope (pitch_bend : List (ℚ × ℤ)) (prev_pitch_bend : ℚ)
    (num_samples : ℕ) : List ℚ × ℚ :=
  let last_bend := ((pitch_bend.getLast?).map Prod.fst).getD prev_pitch_bend
  (envSamples ((prev_pitch_bend, (0 : ℤ)) :: (pitch_bend ++ [(last_bend, (num_samples : ℤ))])),
   last_bend)

/-- Sample offsets of an event list are nondecreasing (the well-formedness
assumption of claim C1, stated as a computable `Bool`). -/
def offsetsMonoB : List (ℚ × ℤ) → Bool
  | p :: q :: rest => decide (p.2 ≤ q.2) && offsetsMonoB (q :: rest)
  | _ => true

lemma interpolate_n_length (start final : ℚ) (num : ℕ) :
    (interpolate_n start final num).length = num := by
  unfold interpolate_n
  rw [List.length_map, List.length_range]

lemma envSamples_nil : envSamples [] = [] := rfl

lemma envSamples_singleton (p : ℚ × ℤ) : envSamples [p] = [] := rfl

lemma envSamples_cons_cons (p q : ℚ × ℤ) (rest : List (ℚ × ℤ)) :
    envSamples (p :: q :: rest) =
      interpolate_n p.1 q.1 (q.2 - p.2).toNat ++ envSamples (q :: rest) := by
  simp [envSamples, neighbor_pairs]

lemma offsetsMonoB_cons_cons (p q : ℚ × ℤ) (rest : List (ℚ × ℤ)) :
    offsetsMonoB (p :: q :: rest) = (decide (p.2 ≤ q.2) && offsetsMonoB (q :: rest)) := rfl

lemma offsetsMonoB_le_getLastD (q : ℚ × ℤ) (rest : List (ℚ × ℤ))
    (h : offsetsMonoB (q :: rest) = true) : q.2 ≤ (rest.getLastD q).2 := by
  induction rest generalizing q with
  | nil => simp
  | cons r rest ih =>
      rw [offsetsMonoB_cons_cons, Bool.and_eq_true, decide_eq_true_eq] at h
      calc q.2 ≤ r.2 := h.1
        _ ≤ ((r :: rest).getLastD q).2 := by
            rw [List.getLastD_cons]
            exact ih r h.2

lemma envSamples_length (p : ℚ × ℤ) (rest : List (ℚ × ℤ))
    (h : offsetsMonoB (p :: rest) = true) :
    (envSamples (p :: rest)).length = ((rest.getLastD p).2 - p.2).toNat := by
  induction rest generalizing p with
  | nil => simp [envSamples_singleton]
  | cons q rest ih =>
      rw [offsetsMonoB_cons_cons, Bool.and_eq_true, decide_eq_true_eq] at h
      have hq : q.2 ≤ (rest.getLastD q).2 := offsetsMonoB_le_getLastD q rest h.2
      rw [envSamples_cons_cons, List.length_append, interpolate_n_length, ih q h.2,
        List.getLastD_cons]
      omega

lemma getLastD_cons_mem (x : α) (l : List α) (a : α) :
    (x :: l).getLastD a ∈ x :: l := by
  induction l generalizing x with
  | nil => simp
  | cons y l ih =>
      rw [List.getLastD_cons]
      exact List.mem_cons_of_mem x (ih y)

lemma offsetsMonoB_tail (x : ℚ × ℤ) (xs : List (ℚ × ℤ))
    (h : offsetsMonoB (x :: xs) = true) : offsetsMonoB xs = true := by
  cases xs with
  | nil => rfl
  | cons q rest =>
      rw [offsetsMonoB_cons_cons, Bool.and_eq_true] at h
      exact h.2

lemma offsetsMonoB_append_last (x : ℚ × ℤ) (xs : List (ℚ × ℤ)) (z : ℚ × ℤ)
    (h : offsetsMonoB (x :: xs) = true) (hz : (xs.getLastD x).2 ≤ z.2) :
    offsetsMonoB (x :: (xs ++ [z])) = true := by
  induction xs generalizing x with
  | nil =>
      simp only [List.getLastD] at hz
      simp [offsetsMonoB, hz]
  | cons q xs ih =>
      rw [offsetsMonoB_cons_cons, Bool.and_eq_true, decide_eq_true_eq] at h
      rw [List.getLastD_cons] at hz
      have hrec := ih q h.2 hz
      rw [List.cons_append, offsetsMonoB_cons_cons, hrec, Bool.and_eq_true,
        decide_eq_true_eq]
      exact ⟨h.1, rfl⟩

lemma offsetsMonoB_cons_of_lb (a : ℚ × ℤ) (l : List (ℚ × ℤ))
    (h : offsetsMonoB l = true) (hlb : ∀ p ∈ l, a.2 ≤ p.2) :
    offsetsMonoB (a :: l) = true := by
  cases l with
  | nil => rfl
  | cons q rest =>
      rw [offsetsMonoB_cons_cons, h, Bool.and_eq_true, decide_eq_true_eq]
      exact ⟨hlb q (List.mem_cons_self q rest), rfl⟩

/-- C1: for every slice of pitch-bend events whose sample offsets are
nondecreasing and lie within `[0, num_samples]`,
`NormalizedPitchbend::to_pitch_envelope` yields exactly `num_samples`
interpolated values, and the carried-forward "previous value" it returns is
the last event's bend value, or `prev_pitch_bend` when the event slice is
empty. -/
theorem to_pitch_envelope_length_and_carry
    (pitch_bend : List (ℚ × ℤ)) (prev_pitch_bend : ℚ) (num_samples : ℕ)
    (hmono : offsetsMonoB pitch_bend = true)
    (hbound : ∀ p ∈ pitch_bend, 0 ≤ p.2 ∧ p.2 ≤ (num_samples : ℤ)) :
    (to_pitch_envelope pitch_bend prev_pitch_bend num_samples).1.length = num_samples ∧
    (to_pitch_envelope pitch_bend prev_pitch_bend num_samples).2 =
      ((pitch_bend.getLast?).map Prod.fst).getD prev_pitch_bend := by
  refine ⟨?_, rfl⟩
  set last_bend := ((pitch_bend.getLast?).map Prod.fst).getD prev_pitch_bend with hlb
  have hfirst : offsetsMonoB ((prev_pitch_bend, (0 : ℤ)) :: pitch_bend) = true :=
    offsetsMonoB_cons_of_lb _ _ hmono (fun p hp => (hbound p hp).1)
  have hlast : ((pitch_bend.getLastD (prev_pitch_bend, (0 : ℤ))).2 ≤ (num_samples : ℤ)) := by
    cases pitch_bend with
    | nil => simp
    | cons q rest =>
        exact (hbound _ (getLastD_cons_mem q rest _)).2
  have hchain : offsetsMonoB ((prev_pitch_bend, (0 : ℤ)) ::
      (pitch_bend ++ [(last_bend, (num_samples : ℤ))])) = true :=
    offsetsMonoB_append_last _ _ _ hfirst hlast
  have hconcat : ((pitch_bend ++ [(last_bend, (num_samples : ℤ))]).getLastD
      (prev_pitch_bend, (0 : ℤ))) = (last_bend, (num_samples : ℤ)) := by
    simp [List.getLastD_concat]
  show (envSamples ((prev_pitch_bend, (0 : ℤ)) ::
      (pitch_bend ++ [(last_bend, (num_samples : ℤ))]))).length = num_samples
  rw [envSamples_length _ _ hchain, hconcat]
  show ((num_samples : ℤ) - 0).toNat = num_samples
  omega

/-- Witness for C1 at `pitch_bend = [(1, 2)]`, `prev = 0`, `num_samples = 4`. -/
theorem to_pitch_envelope_length_and_carry_witness :
    offsetsMonoB [((1 : ℚ), (2 : ℤ))] = true ∧
    (∀ p ∈ [((1 : ℚ), (2 : ℤ))], 0 ≤ p.2 ∧ p.2 ≤ ((4 : ℕ) : ℤ)) ∧
    (to_pitch_envelope [((1 : ℚ), (2 : ℤ))] 0 4).1.length = 4 ∧
    (to_pitch_envelope [((1 : ℚ), (2 : ℤ))] 0 4).2 =
      (([((1 : ℚ), (2 : ℤ))].getLast?).map Prod.fst).getD 0 :=
  ⟨by decide, by decide,
    to_pitch_envelope_length_and_carry [((1 : ℚ), (2 : ℤ))] 0 4 (by decide) (by decide)⟩

/-- C2: with `prev = 0`, no events and `num_samples = 4` the envelope is
`[0, 0, 0, 0]` with carried value `0`; with `prev = 0`, events `[(1, 2)]`
and `num_samples = 4` the samples at indices 0 and 1 interpolate linearly
from `0` toward `1` (values `0` and `1/2`), the samples at indices 2 and 3
hold flat at `1`, and the carried value is `1`. -/
theorem to_pitch_envelope_examples :
    to_pitch_envelope [] 0 4 = ([0, 0, 0, 0], 0) ∧
    to_pitch_envelope [((1 : ℚ), (2 : ℤ))] 0 4 = ([0, 1/2, 1, 1], 1) := by
  constructor <;>
    simp [to_pitch_envelope, envSamples, neighbor_pairs, interpolate_n, lerp,
      List.range_succ, List.replicate_succ]

/-- `Decibel` (common.rs, line 305): a decibel level; the `f32` payload is
modelled as `ℝ` because `get_amp`/`from_amp` apply transcendental functions. -/
structure Decibel where
  db : ℝ

/-- `Decibel::NEG_INF_DB_THRESHOLD` (common.rs, line 310): `-70.0`. -/
def NEG_INF_DB_THRESHOLD : ℝ := -70

/-- `Decibel::from_db` (common.rs, lines 312-314). -/
def Decibel.from_db (db : ℝ) : Decibel := ⟨db⟩

/-- `Decibel::neg_inf_db` (common.rs, lines 316-318). -/
def Decibel.neg_inf_db : Decibel := Decibel.from_db NEG_INF_DB_THRESHOLD

/-- `Decibel::zero_db` (common.rs, lines 320-322). -/
def Decibel.zero_db : Decibel := Decibel.from_db 0

/-- `Decibel::get_db` (common.rs, lines 362-364). -/
def Decibel.get_db (d : Decibel) : ℝ := d.db

/-- `Decibel::from_amp` (common.rs, lines 324-326): `f32::log10(amp) * 10.0`,
with `Real.logb 10` standing for `f32::log10`. -/
noncomputable def Decibel.from_amp (amp : ℝ) : Decibel :=
  Decibel.from_db (Real.logb 10 amp * 10)

/-- `Decibel::get_amp` (common.rs, lines 352-359): `0.0` at or below the
floor, otherwise `10.0f32.powf(db / 10.0)`, with real exponentiation
standing for `powf`. -/
noncomputable def Decibel.get_amp (d : Decibel) : ℝ :=
  if d.get_db ≤ NEG_INF_DB_THRESHOLD then 0 else (10 : ℝ) ^ (d.get_db / 10)

/-- Modelled from the spec: `ease::lerp` at `f32`, real-valued (the file
`ease.rs` is not part of the provided sources).  Spec 4.1, Linear variant. -/
noncomputable def lerpReal (start final t : ℝ) : ℝ :=
  start + (final - start) * t

/-- `Decibel::lerp_amp` (common.rs, lines 329-332). -/
noncomputable def Decibel.lerp_amp (start final : Decibel) (t : ℝ) : Decibel :=
  Decibel.from_amp (lerpReal start.get_amp final.get_amp t)

/-- `Decibel::lerp_db` (common.rs, lines 335-338). -/
noncomputable def Decibel.lerp_db (start final t : ℝ) : Decibel :=
  Decibel.from_db (lerpReal start final t)

/-- `EnvelopeType::lerp_attack` for `Decibel` (common.rs, lines 368-372). -/
noncomputable def Decibel.lerp_attack (start final : Decibel) (t : ℝ) : Decibel :=
  Decibel.lerp_amp start final t

/-- `EnvelopeType::lerp_decay` for `Decibel` (common.rs, lines 373-375). -/
noncomputable def Decibel.lerp_decay (start final : Decibel) (t : ℝ) : Decibel :=
  Decibel.lerp_db start.get_db final.get_db t

/-- `EnvelopeType::lerp_release` for `Decibel` (common.rs, lines 376-378). -/
noncomputable def Decibel.lerp_release (start final : Decibel) (t : ℝ) : Decibel :=
  Decibel.lerp_db start.get_db final.get_db t

/-- `EnvelopeType::lerp_retrigger` for `Decibel` (common.rs, lines 379-381). -/
noncomputable def Decibel.lerp_retrigger (start final : Decibel) (t : ℝ) : Decibel :=
  Decibel.lerp_amp start final t

/-- `EnvelopeType::one` for `Decibel` (common.rs, lines 382-384). -/
def Decibel.one : Decibel := Decibel.zero_db

/-- `EnvelopeType::zero` for `Decibel` (common.rs, lines 385-387). -/
def Decibel.zero : Decibel := Decibel.neg_inf_db

/-- C3: for every Decibel at or below the -70 dB floor, `get_amp` is exactly
`0`; above the floor it is `10 ^ (db / 10)` (power convention); and
`Decibel::from_amp(1.0).get_db()` is `0`. -/
theorem decibel_amp_spec :
    (∀ d : Decibel, d.get_db ≤ -70 → d.get_amp = 0) ∧
    (∀ d : Decibel, -70 < d.get_db → d.get_amp = (10 : ℝ) ^ (d.get_db / 10)) ∧
    (Decibel.from_amp 1).get_db = 0 := by
  refine ⟨?_, ?_, ?_⟩
  · intro d h
    rw [Decibel.get_amp, if_pos]
    exact h
  · intro d h
    rw [Decibel.get_amp, if_neg]
    rw [NEG_INF_DB_THRESHOLD, not_le]
    exact h
  · simp [Decibel.from_amp, Decibel.from_db, Decibel.get_db, Real.logb_one]

/-- Witness for C3 at `-80` dB (floor branch) and `0` dB (power branch). -/
theorem decibel_amp_spec_witness :
    ((Decibel.from_db (-80)).get_db ≤ -70 ∧ (Decibel.from_db (-80)).get_amp = 0) ∧
    ((-70 : ℝ) < (Decibel.from_db 0).get_db ∧
      (Decibel.from_db 0).get_amp = (10 : ℝ) ^ ((Decibel.from_db 0).get_db / 10)) := by
  have h1 : (Decibel.from_db (-80)).get_db ≤ -70 := by
    norm_num [Decibel.get_db, Decibel.from_db]
  have h2 : (-70 : ℝ) < (Decibel.from_db 0).get_db := by
    norm_num [Decibel.get_db, Decibel.from_db]
  exact ⟨⟨h1, decibel_amp_spec.1 _ h1⟩, h2, decibel_amp_spec.2.1 _ h2⟩

/-- C4: in the `EnvelopeType` instantiation for `Decibel`, attack and
retrigger interpolate in amplitude space (`lerp_amp`), decay and release
interpolate in dB space (`lerp_db` on the endpoints' dB values), `zero()`
is the -70 dB floor and `one()` is 0 dB. -/
theorem decibel_envelope_type_spec :
    (∀ (s e : Decibel) (t : ℝ),
      Decibel.lerp_attack s e t = Decibel.lerp_amp s e t ∧
      Decibel.lerp_retrigger s e t = Decibel.lerp_amp s e t ∧
      Decibel.lerp_decay s e t = Decibel.lerp_db s.get_db e.get_db t ∧
      Decibel.lerp_release s e t = Decibel.lerp_db s.get_db e.get_db t) ∧
    Decibel.zero = Decibel.from_db (-70) ∧
    Decibel.one = Decibel.from_db 0 :=
  ⟨fun _ _ _ => ⟨rfl, rfl, rfl, rfl⟩, rfl, rfl⟩

/-- Model of an `f32` in contexts where NaN is the question: either NaN or a
finite value (claim C5 concerns only the NaN/non-NaN distinction, so the
finite payload is a rational). -/
inductive F32 where
  | nan : F32
  | num : ℚ → F32
deriving DecidableEq

/-- NaN test on the `F32` model. -/
def F32.isNaN : F32 → Bool
  | .nan => true
  | .num _ => false

/-- `Seconds` (common.rs, line 74): wraps `OrderedFloat<f32>`, which stores
the float unchanged (the wrapper only supplies a total order). -/
structure Seconds where
  val : F32
deriving DecidableEq

/-- `Seconds::new` (common.rs, lines 80-83): wraps the given value; no
validation is performed. -/
def Seconds.new (seconds : F32) : Seconds := ⟨seconds⟩

/-- `Seconds::get` (common.rs, lines 86-88). -/
def Seconds.get (s : Seconds) : F32 := s.val

/-- `impl From<f32> for Seconds` (common.rs, lines 125-129): also a plain
wrap with no validation. -/
def Seconds.fromF32 (value : F32) : Seconds := ⟨value⟩

/-- C5 counterexample: constructing a `Seconds` from NaN is not rejected:
`Seconds::new` succeeds on NaN and the constructed value contains NaN, so
downstream code cannot assume "no NaN". -/
theorem seconds_new_accepts_nan :
    Seconds.new F32.nan = ⟨F32.nan⟩ ∧ (Seconds.new F32.nan).get.isNaN = true :=
  ⟨rfl, rfl⟩

/-- C5 amended: `Seconds::new` and `From<f32>` are total and perform no
validation at the construction boundary: every input, NaN included, is
wrapped unchanged (the total order instead comes from `OrderedFloat`,
which defines an ordering for NaN rather than rejecting it). -/
theorem seconds_new_total :
    ∀ x : F32, Seconds.new x = ⟨x⟩ ∧ Seconds.fromF32 x = ⟨x⟩ ∧ (Seconds.new x).get = x :=
  fun _ => ⟨rfl, rfl, rfl⟩

/-- `SampleRate` (common.rs, line 20); the `f32` payload is modelled as `ℚ`
(only comparisons are involved). -/
structure SampleRate where
  val : ℚ
deriving DecidableEq

/-- `SampleRate::new` (common.rs, lines 23-29): `None` for `rate <= 0.0`,
otherwise `Some(SampleRate(rate))`. -/
def SampleRate.new (rate : ℚ) : Option SampleRate :=
  if rate ≤ 0 then none else some ⟨rate⟩

/-- C6: `SampleRate::new` rejects every rate at or below zero with `None`
(never substituting a default) and accepts every positive rate unchanged. -/
theorem sample_rate_new_spec :
    (∀ rate : ℚ, rate ≤ 0 → SampleRate.new rate = none) ∧
    (∀ rate : ℚ, 0 < rate → SampleRate.new rate = some ⟨rate⟩) := by
  constructor
  · intro r h
    rw [SampleRate.new, if_pos h]
  · intro r h
    rw [SampleRate.new, if_neg (not_le.mpr h)]

/-- Witness for C6 at `rate = -1` (rejected) and `rate = 2` (accepted). -/
theorem sample_rate_new_spec_witness :
    ((-1 : ℚ) ≤ 0 ∧ SampleRate.new (-1) = none) ∧
    ((0 : ℚ) < 2 ∧ SampleRate.new 2 = some ⟨2⟩) :=
  ⟨⟨by norm_num, sample_rate_new_spec.1 _ (by norm_num)⟩,
   ⟨by norm_num, sample_rate_new_spec.2 _ (by norm_num)⟩⟩

/-- `Hertz` (common.rs, line 164); `f32` modelled as `ℝ`. -/
structure Hertz where
  val : ℝ

/-- `Hertz::get` (common.rs, lines 171-173). -/
def Hertz.get (h : Hertz) : ℝ := h.val

/-- `Pitch` (common.rs, line 138): linear (log2) pitch space. -/
structure Pitch where
  val : ℝ

/-- `Pitch::from_hertz` (common.rs, lines 145-147): `hertz.get().log2()`,
with `Real.logb 2` standing for `f32::log2`. -/
noncomputable def Pitch.from_hertz (hertz : Hertz) : Pitch :=
  ⟨Real.logb 2 hertz.get⟩

/-- `Pitch::into_hertz` (common.rs, lines 149-151): `self.0.exp2()`, with
`(2 : ℝ) ^ ·` standing for `f32::exp2`. -/
noncomputable def Pitch.into_hertz (p : Pitch) : Hertz :=
  ⟨(2 : ℝ) ^ p.val⟩

/-- C7: for every positive frequency `h`, the round trip
`Pitch::from_hertz(Hertz(h)).into_hertz()` reproduces `h` (exactly, in the
real-number model that stands for "within floating-point tolerance"). -/
theorem pitch_hertz_roundtrip (h : ℝ) (hpos : 0 < h) :
    (Pitch.from_hertz ⟨h⟩).into_hertz = ⟨h⟩ := by
  simp only [Pitch.from_hertz, Pitch.into_hertz, Hertz.get]
  exact congrArg Hertz.mk (Real.rpow_logb (by norm_num) (by norm_num) hpos)

/-- Witness for C7 at `h = 1`. -/
theorem pitch_hertz_roundtrip_witness :
    (0 : ℝ) < 1 ∧ (Pitch.from_hertz ⟨1⟩).into_hertz = ⟨1⟩ :=
  ⟨by norm_num, pitch_hertz_roundtrip 1 (by norm_num)⟩

/-- Decimal rendering shared by the fixed-precision formatters: `scaled` is
the absolute value already scaled by `10 ^ prec` and rounded to an integer;
the fractional digits are zero-padded to `prec` places. -/
def decimalString (neg : Bool) (scaled : ℕ) (prec : ℕ) : String :=
  let sign := if neg then "-" else ""
  let ip := scaled / 10 ^ prec
  let fp := scaled % 10 ^ prec
  if prec = 0 then
    sign ++ toString ip
  else
    let fs := toString fp
    let pad := String.mk (List.replicate (prec - fs.length) '0')
    sign ++ toString ip ++ "." ++ pad ++ fs

/-- Modelled from the spec: Rust's fixed-precision formatting of an `f32`
with `prec` digits after the decimal point, used by the display strings of
spec section 6, here on the rational model of `f32`.  Ties are rounded half
away from zero; no value appearing in the claims is a tie. -/
def formatFixed (prec : ℕ) (x : ℚ) : String :=
  decimalString (decide (x < 0)) (Int.floor (|x| * 10 ^ prec + 1/2)).toNat prec

/-- The same fixed-precision formatter over the real model of `f32` (used
where a `Decibel` dB value is formatted). -/
noncomputable def formatFixedR (prec : ℕ) (x : ℝ) : String :=
  decimalString (decide (x < 0)) (Int.floor (|x| * 10 ^ prec + 1/2)).toNat prec

lemma formatFixed_eval (prec : ℕ) (x : ℚ) (neg : Bool) (scaled : ℤ)
    (hneg : decide (x < 0) = neg) (hfl : Int.floor (|x| * 10 ^ prec + 1/2) = scaled) :
    formatFixed prec x = decimalString neg scaled.toNat prec := by
  rw [formatFixed, hneg, hfl]

/-- `duration_strings` (params.rs, lines 390-396). -/
def duration_strings (duration : ℚ) : String × String :=
  if duration < 1 then (formatFixed 1 (duration * 1000), " ms")
  else (formatFixed 2 duration, " sec")

/-- `make_strings` (params.rs, lines 386-388). -/
def make_strings (value : ℚ) (label : String) : String × String :=
  (formatFixed 2 value, label)

/-- `volume_string` (params.rs, lines 430-438); `sound_gen::NEG_INF_DB_THRESHOLD`
is `Decibel::NEG_INF_DB_THRESHOLD = -70.0` (spec 4.2). -/
noncomputable def volume_string (decibel : Decibel) : String × String :=
  if decibel.get_db ≤ NEG_INF_DB_THRESHOLD then ("-inf", "dB")
  else if decibel.get_db < 0 then (formatFixedR 2 decibel.get_db, "dB")
  else ("+" ++ formatFixedR 2 decibel.get_db, "dB")

/-- `EnvelopeParam` (params.rs, lines 635-643). -/
inductive EnvelopeParam where
  | Attack
  | Decay
  | Hold
  | Sustain
  | Release
  | Multiply
deriving DecidableEq

/-- `VolEnvParams` (params.rs, lines 249-256): the duration fields are
`f32` seconds modelled as `ℚ`; the sustain level is a `Decibel`. -/
structure VolEnvParams where
  attack : ℚ
  hold : ℚ
  decay : ℚ
  sustain : Decibel
  release : ℚ

/-- `vol_env_strings` (params.rs, lines 419-428). -/
noncomputable def vol_env_strings (envelope : VolEnvParams) (param : EnvelopeParam) :
    String × String :=
  match param with
  | .Attack => duration_strings envelope.attack
  | .Hold => duration_strings envelope.hold
  | .Decay => duration_strings envelope.decay
  | .Sustain => volume_string envelope.sustain
  | .Release => duration_strings envelope.release
  | .Multiply => make_strings (-9999) "IMPOSSIBLE"

/-- C8: the display derivation is a deterministic function of the eased
value: every duration below one second renders as the duration times 1000
formatted with one decimal place paired with unit " ms", every duration at
or above one second renders with two decimal places paired with " sec",
and every Decibel at or below the -70 dB floor renders as ("-inf", "dB"). -/
theorem display_strings_spec :
    (∀ d : ℚ, d < 1 → duration_strings d = (formatFixed 1 (d * 1000), " ms")) ∧
    (∀ d : ℚ, 1 ≤ d → duration_strings d = (formatFixed 2 d, " sec")) ∧
    (∀ dec : Decibel, dec.get_db ≤ -70 → volume_string dec = ("-inf", "dB")) := by
  refine ⟨?_, ?_, ?_⟩
  · intro d h
    rw [duration_strings, if_pos h]
  · intro d h
    rw [duration_strings, if_neg (not_lt.mpr h)]
  · intro dec h
    simp only [volume_string, NEG_INF_DB_THRESHOLD]
    rw [if_pos h]

/-- Witness for C8: a 0.5 s duration renders as ("500.0", " ms"), a 2 s
duration renders as ("2.00", " sec"), and -80 dB renders as ("-inf", "dB"). -/
theorem display_strings_spec_witness :
    ((1 / 2 : ℚ) < 1 ∧ duration_strings (1 / 2) = ("500.0", " ms")) ∧
    ((1 : ℚ) ≤ 2 ∧ duration_strings 2 = ("2.00", " sec")) ∧
    ((Decibel.from_db (-80)).get_db ≤ -70 ∧
      volume_string (Decibel.from_db (-80)) = ("-inf", "dB")) := by
  have h1 : (1 / 2 : ℚ) < 1 := by norm_num
  have h2 : (1 : ℚ) ≤ 2 := by norm_num
  have h3 : (Decibel.from_db (-80)).get_db ≤ -70 := by
    norm_num [Decibel.get_db, Decibel.from_db]
  refine ⟨⟨h1, ?_⟩, ⟨h2, ?_⟩, ⟨h3, display_strings_spec.2.2 _ h3⟩⟩
  · rw [display_strings_spec.1 _ h1]
    have hneg : decide (((1 / 2 : ℚ) * 1000) < 0) = false := by
      rw [decide_eq_false_iff_not]
      norm_num
    have hfl : Int.floor (|((1 / 2 : ℚ) * 1000)| * 10 ^ (1 : ℕ) + 1/2) = (5000 : ℤ) := by
      rw [abs_of_nonneg (by norm_num : (0 : ℚ) ≤ (1 / 2 : ℚ) * 1000), Int.floor_eq_iff]
      constructor <;> norm_num
    rw [formatFixed_eval 1 _ false 5000 hneg hfl]
    decide
  · rw [display_strings_spec.2.1 _ h2]
    have hneg : decide ((2 : ℚ) < 0) = false := by
      rw [decide_eq_false_iff_not]
      norm_num
    have hfl : Int.floor (|(2 : ℚ)| * 10 ^ (2 : ℕ) + 1/2) = (200 : ℤ) := by
      rw [abs_of_nonneg (by norm_num : (0 : ℚ) ≤ (2 : ℚ)), Int.floor_eq_iff]
      constructor <;> norm_num
    rw [formatFixed_eval 2 _ false 200 hneg hfl]
    decide

/-- C9: requesting the Multiply display string for a volume envelope (which
has no multiply semantics) returns the sentinel pair
("-9999.00", "IMPOSSIBLE") for every envelope, rather than failing. -/
theorem vol_env_multiply_sentinel (envelope : VolEnvParams) :
    vol_env_strings envelope EnvelopeParam.Multiply = ("-9999.00", "IMPOSSIBLE") := by
  show make_strings (-9999) "IMPOSSIBLE" = ("-9999.00", "IMPOSSIBLE")
  rw [make_strings]
  have hneg : decide ((-9999 : ℚ) < 0) = true := by
    rw [decide_eq_true_eq]
    norm_num
  have hfl : Int.floor (|(-9999 : ℚ)| * 10 ^ (2 : ℕ) + 1/2) = (999900 : ℤ) := by
    rw [abs_of_nonpos (by norm_num : (-9999 : ℚ) ≤ 0), Int.floor_eq_iff]
    constructor <;> norm_num
  rw [formatFixed_eval 2 _ true 999900 hneg hfl]
  decide

/-- `OSCParameterType` (params.rs, lines 589-608). -/
inductive OSCParameterType where
  | Volume
  | Phase
  | Pan
  | Shape
  | Warp
  | FineTune
  | CoarseTune
  | VolumeEnv (param : EnvelopeParam)
  | VolLFOAmplitude
  | VolLFOPeriod
  | PitchEnv (param : EnvelopeParam)
  | PitchLFOAmplitude
  | PitchLFOPeriod
  | FilterType
  | FilterFreq
  | FilterQ
  | FilterGain
deriving DecidableEq

/-- `ParameterType` (params.rs, lines 659-663). -/
inductive ParameterType where
  | MasterVolume
  | OSC1 (param : OSCParameterType)
deriving DecidableEq

/-- `TryFrom<i32> for ParameterType`, generated by the `impl_from_i32` macro
from the parameter table (params.rs, lines 699-738): each listed index maps
to its variant (including the two dummy rows at indices -1 and -3); every
other index is an error, modelled as `none`. -/
def ParameterType.try_from (index : ℤ) : Option ParameterType :=
  if index = -1 then some (.OSC1 (.VolumeEnv .Multiply))
  else if index = -3 then some (.OSC1 (.PitchEnv .Sustain))
  else if index = 0 then some .MasterVolume
  else if index = 1 then some (.OSC1 .Volume)
  else if index = 2 then some (.OSC1 .Phase)
  else if index = 3 then some (.OSC1 .Pan)
  else if index = 4 then some (.OSC1 .Shape)
  else if index = 5 then some (.OSC1 .Warp)
  else if index = 6 then some (.OSC1 .FineTune)
  else if index = 7 then some (.OSC1 .CoarseTune)
  else if index = 8 then some (.OSC1 (.VolumeEnv .Attack))
  else if index = 9 then some (.OSC1 (.VolumeEnv .Hold))
  else if index = 10 then some (.OSC1 (.VolumeEnv .Decay))
  else if index = 11 then some (.OSC1 (.VolumeEnv .Sustain))
  else if index = 12 then some (.OSC1 (.VolumeEnv .Release))
  else if index = 13 then some (.OSC1 .VolLFOAmplitude)
  else if index = 14 then some (.OSC1 .VolLFOPeriod)
  else if index = 15 then some (.OSC1 (.PitchEnv .Attack))
  else if index = 16 then some (.OSC1 (.PitchEnv .Hold))
  else if index = 17 then some (.OSC1 (.PitchEnv .Decay))
  else if index = 18 then some (.OSC1 (.PitchEnv .Release))
  else if index = 19 then some (.OSC1 (.PitchEnv .Multiply))
  else if index = 20 then some (.OSC1 .PitchLFOAmplitude)
  else if index = 21 then some (.OSC1 .PitchLFOPeriod)
  else if index = 22 then some (.OSC1 .FilterType)
  else if index = 23 then some (.OSC1 .FilterFreq)
  else if index = 24 then some (.OSC1 .FilterQ)
  else if index = 25 then some (.OSC1 .FilterGain)
  else none

/-- A host edit notification sent through the `vst::host::Host` handle
(`begin_edit`/`end_edit` calls made by `RawParameters::set`). -/
inductive HostEvent where
  | begin_edit (parameter : ParameterType)
  | end_edit (parameter : ParameterType)
deriving DecidableEq

/-- `RawParameters` (generated by `generate_raw_params` from the table in
params.rs): one raw `f32` slot (modelled as `ℚ`) per `ParameterType`; the
`AtomicFloat` store is modelled as a plain map since `set_parameter` is a
single sequential call. -/
structure RawParameters where
  slots : ParameterType → ℚ

/-- `RawParameters::get` (params.rs, lines 375-377), reading a slot through
`get_ref(parameter).get()`. -/
def RawParameters.get (self : RawParameters) (parameter : ParameterType) : ℚ :=
  self.slots parameter

/-- `RawParameters::set` (params.rs, lines 351-361): sends `begin_edit`,
writes the slot, sends `end_edit`.  Returns the new state and the host
events emitted, in order. -/
def RawParameters.set (self : RawParameters) (value : ℚ) (parameter : ParameterType) :
    RawParameters × List HostEvent :=
  (⟨fun p => if p = parameter then value else self.slots p⟩,
   [HostEvent.begin_edit parameter, HostEvent.end_edit parameter])

/-- `RawParameters::set_and_update_knob` (params.rs, lines 367-373): `set`
followed by a GUI update message `(parameter, value)` on the sender channel
(send errors are ignored, so the message list is unconditional). -/
def RawParameters.set_and_update_knob (self : RawParameters) (value : ℚ)
    (parameter : ParameterType) :
    RawParameters × List HostEvent × List (ParameterType × ℚ) :=
  let r := self.set value parameter
  (r.1, r.2, [(parameter, value)])

/-- `PluginParameters::set_parameter` (params.rs, lines 514-529): invalid
indices are ignored; for a valid index the incoming value is compared with
the stored raw value by float equality and echoed values return early;
otherwise the parameter is set and the GUI notified. -/
def RawParameters.set_parameter (self : RawParameters) (index : ℤ) (value : ℚ) :
    RawParameters × List HostEvent × List (ParameterType × ℚ) :=
  match ParameterType.try_from index with
  | some parameter =>
      if self.get parameter = value then (self, [], [])
      else self.set_and_update_knob value parameter
  | none => (self, [], [])

/-- C10: `set_parameter` is guarded against host echo: for a valid index
whose incoming value exactly equals the stored raw value it returns with
the state unchanged and no host `begin_edit`/`end_edit` events and no GUI
message; for an invalid index (`try_from` fails) it likewise changes
nothing and emits nothing. -/
theorem set_parameter_echo_guard :
    (∀ (self : RawParameters) (index : ℤ) (value : ℚ) (parameter : ParameterType),
      ParameterType.try_from index = some parameter →
      self.get parameter = value →
      self.set_parameter index value = (self, [], [])) ∧
    (∀ (self : RawParameters) (index : ℤ) (value : ℚ),
      ParameterType.try_from index = none →
      self.set_parameter index value = (self, [], [])) := by
  constructor
  · intro self index value parameter hsome heq
    rw [RawParameters.set_parameter, hsome]
    exact if_pos heq
  · intro self index value hnone
    rw [RawParameters.set_parameter, hnone]

/-- Witness for C10 on the all-zero store: index 0 (Master Volume) with the
echoed value 0 is a no-op, and the invalid index 26 is a no-op. -/
theorem set_parameter_echo_guard_witness :
    (ParameterType.try_from 0 = some ParameterType.MasterVolume ∧
      (RawParameters.mk (fun _ => 0)).get ParameterType.MasterVolume = 0 ∧
      (RawParameters.mk (fun _ => 0)).set_parameter 0 0 =
        (RawParameters.mk (fun _ => 0), [], [])) ∧
    (ParameterType.try_from 26 = none ∧
      (RawParameters.mk (fun _ => 0)).set_parameter 26 0 =
        (RawParameters.mk (fun _ => 0), [], [])) := by
  have hsome : ParameterType.try_from 0 = some ParameterType.MasterVolume := by decide
  have hnone : ParameterType.try_from 26 = none := by decide
  have hget : (RawParameters.mk (fun _ => 0)).get ParameterType.MasterVolume = 0 := rfl
  exact ⟨⟨hsome, hget, set_parameter_echo_guard.1 _ 0 0 _ hsome hget⟩,
    hnone, set_parameter_echo_guard.2 _ 26 0 hnone⟩
